import Mathlib

/-!
Verification development for `foodsaving/users/models.py` (karrot-backend user
model): the `UserManager` factory/lookup methods and the `User` state-transition
operations (email verification, password reset/change, language update, soft
deletion).

Modelling conventions:
* Email strings are modelled as their character-code sequences (`List Nat`);
  lowercasing/uppercasing and whitespace stripping act on ASCII codes, matching
  Python `str.lower`/`str.upper`/`str.strip` and the SQL `LOWER` comparison
  behind Django's `__iexact` on the e-mail alphabet.
* A Django model instance is an in-memory object (`mem`) distinct from its
  committed database row (`row`); `save()` copies `mem` into `row`.  Verification
  codes, group memberships and the transactional e-mail outbox are separate
  stores alongside the row.
* Wall-clock time (`timezone.now()`) is an explicit `Nat` parameter of
  `delete_`.
* Outgoing e-mails are recorded by template key in `outbox`; delivery has no
  further effect on the data model.
-/

/-- Character-code sequence standing for a Python `str` e-mail value. -/
abbrev EmailStr := List Nat

/-- ASCII lowercasing of one character code (SQL `LOWER` / Python `str.lower`). -/
def lowerCode (n : Nat) : Nat := if 65 ≤ n ∧ n ≤ 90 then n + 32 else n

/-- ASCII uppercasing of one character code (Python `str.upper`). -/
def upperCode (n : Nat) : Nat := if 97 ≤ n ∧ n ≤ 122 then n - 32 else n

def lowerStr (s : EmailStr) : EmailStr := s.map lowerCode

def upperStr (s : EmailStr) : EmailStr := s.map upperCode

/-- Whitespace recognised by Python `str.strip()` (ASCII part). -/
def isSpaceCode (n : Nat) : Bool :=
  n == 32 || n == 9 || n == 10 || n == 13 || n == 11 || n == 12

/-- Python `str.strip()`: drop whitespace from both ends. -/
def pstrip (s : EmailStr) : EmailStr :=
  ((s.dropWhile isSpaceCode).reverse.dropWhile isSpaceCode).reverse

/-- `s.rsplit('@', 1)`: split at the LAST `'@'` (code 64); `none` when no `'@'`
occurs (Python raises `ValueError`, caught and ignored by `normalize_email`). -/
def splitLastAt : EmailStr → Option (EmailStr × EmailStr)
  | [] => none
  | c :: rest =>
    match splitLastAt rest with
    | some (a, b) => some (c :: a, b)
    | none => if c = 64 then some ([], rest) else none

/-- Django `BaseUserManager.normalize_email`: strip, split at the last `'@'`,
lowercase the domain part; on a `ValueError` (no `'@'`) return the input
unchanged (the strip applies only inside the `try`). -/
def normalize_email (email : EmailStr) : EmailStr :=
  match splitLastAt (pstrip email) with
  | none => email
  | some (name, domain) => name ++ 64 :: lowerStr domain

/-- Helper to write concrete e-mail values readably. -/
def strCodes (s : String) : EmailStr := s.data.map Char.toNat

/-- Django `__iexact`: case-insensitive equality of two e-mail strings. -/
def iexact (a b : EmailStr) : Bool := lowerStr a == lowerStr b

/-- `__iexact` against a nullable e-mail column: SQL `NULL` never matches. -/
def iexactOpt (a : Option EmailStr) (b : EmailStr) : Bool :=
  match a with
  | none => false
  | some a' => iexact a' b

/-- Django password state: `set_password(raw)` stores a usable hash (we keep the
raw text as the stand-in for its hash); `set_unusable_password()` stores a
marker that can never validate. -/
inductive Password where
  | usable (raw : String)
  | unusable
  deriving DecidableEq, Repr

/-- Django `set_password`: `None` gives an unusable password. -/
def set_password (raw : Option String) : Password :=
  match raw with
  | some r => .usable r
  | none => .unusable

/-- A `VersatileImageField` value: the stored original plus generated size
variants (renditions). -/
structure Photo where
  original : Option String
  variants : List String
  deriving DecidableEq, Repr

/-- `VerificationCode.type`. -/
inductive CodePurpose where
  | emailVerification
  | accountDelete
  | passwordReset
  deriving DecidableEq, Repr

/-- A `VerificationCode` row for the account under consideration: its purpose
and the generated code value (fresh per creation). -/
structure VCode where
  purpose : CodePurpose
  code : Nat
  deriving DecidableEq, Repr

/-- The `User` model's fields (the database row / the instance's field values). -/
structure UserRecord where
  email : Option EmailStr
  is_active : Bool
  is_staff : Bool
  is_superuser : Bool
  display_name : Option String
  description : String
  language : String
  mail_verified : Bool
  unverified_email : Option EmailStr
  password : Password
  photo : Photo
  deleted : Bool
  deleted_at : Option Nat
  deriving DecidableEq, Repr

/-- The field values of a freshly constructed `User(email=e, is_active=True,
display_name=…, unverified_email=e)` as built by `_create_user`, after
`set_password`: both e-mail slots hold `e`, all other fields their model
defaults. -/
def new_user_record (e : EmailStr) (password : Password)
    (display_name : Option String) : UserRecord :=
  { email := some e
    is_active := true
    is_staff := false
    is_superuser := false
    display_name := display_name
    description := ""
    language := "en"
    mail_verified := false
    unverified_email := some e
    password := password
    photo := { original := none, variants := [] }
    deleted := false
    deleted_at := none }

namespace User

/-- State of one account and its associated stores:
`mem` the in-memory model instance, `row` its committed database row,
`codes` this account's verification-code rows, `nextCode` the issuer's fresh
code counter, `memberships` the groups this account is a member of, `groups`
all existing groups, `outbox` the template keys of e-mails sent so far. -/
structure St where
  mem : UserRecord
  row : UserRecord
  codes : List VCode
  nextCode : Nat
  memberships : List Nat
  groups : List Nat
  outbox : List String
  deriving DecidableEq, Repr

/-- `self.save()`: commit the instance's fields to its row. -/
def save (s : St) : St := { s with row := s.mem }

/-- `VerificationCode.objects.filter(user=self, type=p).delete()`. -/
def deleteCodes (s : St) (p : CodePurpose) : St :=
  { s with codes := s.codes.filter (fun c => c.purpose ≠ p) }

/-- `VerificationCode.objects.create(user=self, type=p)`: a fresh code. -/
def createCode (s : St) (p : CodePurpose) : St :=
  { s with codes := s.codes ++ [⟨p, s.nextCode⟩], nextCode := s.nextCode + 1 }

/-- This account's pending codes of purpose `p`. -/
def codesOf (s : St) (p : CodePurpose) : List VCode :=
  s.codes.filter (fun c => c.purpose = p)

/-- `User.verify_mail` (`@transaction.atomic`): delete the EMAIL_VERIFICATION
codes, promote `unverified_email` to `email`, set `mail_verified`, save. -/
def verify_mail (s : St) : St :=
  let s := deleteCodes s .emailVerification
  let s := { s with mem := { s.mem with
    email := s.mem.unverified_email,
    mail_verified := true } }
  save s

/-- `User._unverify_mail` (`@transaction.atomic`): delete the
EMAIL_VERIFICATION codes, create a fresh one, clear `mail_verified`, save. -/
def unverify_mail (s : St) : St :=
  let s := deleteCodes s .emailVerification
  let s := createCode s .emailVerification
  let s := { s with mem := { s.mem with mail_verified := false } }
  save s

/-- `User.send_mail_verification_code` (`@transaction.atomic`):
`_unverify_mail`, then fetch the (unique, just-created) EMAIL_VERIFICATION code
and send the verification e-mail. -/
def send_mail_verification_code (s : St) : St :=
  let s := unverify_mail s
  { s with outbox := s.outbox ++ ["mailverification"] }

/-- `User.update_email` (`@transaction.atomic`): set `unverified_email`, send
the change notice (`_send_mail_change_notification`), then
`send_mail_verification_code` (whose `_unverify_mail` performs the save). -/
def update_email (s : St) (unverified_email : Option EmailStr) : St :=
  let s := { s with mem := { s.mem with unverified_email := unverified_email } }
  let s := { s with outbox := s.outbox ++ ["changemail_notice"] }
  send_mail_verification_code s

/-- `User.restore_email` (`@transaction.atomic`): delete the EMAIL_VERIFICATION
codes, copy `email` back into `unverified_email`, set `mail_verified`, save. -/
def restore_email (s : St) : St :=
  let s := deleteCodes s .emailVerification
  let s := { s with mem := { s.mem with
    unverified_email := s.mem.email,
    mail_verified := true } }
  save s

/-- `User.update_language`: assigns the instance attribute only — the source
has no `self.save()` here, so the row is not written. -/
def update_language (s : St) (language : String) : St :=
  { s with mem := { s.mem with language := language } }

/-- `User.send_account_deletion_verification_code` (`@transaction.atomic`):
delete ACCOUNT_DELETE codes, create a fresh one, e-mail a deep link with it. -/
def send_account_deletion_verification_code (s : St) : St :=
  let s := deleteCodes s .accountDelete
  let s := createCode s .accountDelete
  { s with outbox := s.outbox ++ ["accountdelete_request"] }

/-- `User.reset_password` (`@transaction.atomic`): delete PASSWORD_RESET codes,
create a fresh one, e-mail a deep link with it. -/
def reset_password (s : St) : St :=
  let s := deleteCodes s .passwordReset
  let s := createCode s .passwordReset
  { s with outbox := s.outbox ++ ["passwordreset"] }

/-- `User.change_password` (`@transaction.atomic`): `set_password`, save, send
the confirmation e-mail, delete any PASSWORD_RESET codes. -/
def change_password (s : St) (new_password : String) : St :=
  let s := { s with mem := { s.mem with password := set_password (some new_password) } }
  let s := save s
  let s := { s with outbox := s.outbox ++ ["passwordchange"] }
  deleteCodes s .passwordReset

/-- `User.delete_photo`: `delete_all_created_images()` removes the renditions,
`photo.delete(save=False)` removes the original without saving the row. -/
def delete_photo (s : St) : St :=
  { s with mem := { s.mem with photo := { original := none, variants := [] } } }

/-- `User.delete_` (`@transaction.atomic`): remove this account's group
memberships, scrub personal fields, stamp the tombstone, delete the photo,
save, send the confirmation e-mail.

The source line `self.mail = None` assigns a nonexistent attribute — the model
field is `email`, and `mail` is read nowhere — so the `email` field is left
unchanged by this operation.  No verification codes are touched either. -/
def delete_ (s : St) (now : Nat) : St :=
  let s := { s with memberships := [] }
  let s := { s with mem := { s.mem with
    description := "",
    password := Password.unusable,
    is_active := false,
    is_staff := false,
    mail_verified := false,
    unverified_email := none,
    deleted_at := some now,
    deleted := true } }
  let s := delete_photo s
  let s := save s
  { s with outbox := s.outbox ++ ["accountdelete_success"] }

end User

/-- The error taxonomy of spec §7.  `validationError` is the creation-time
failure for a missing/invalid e-mail (the source raises Python
`ValueError('The email field must be set')` in `_validate_email`; the spec's
taxonomy names it `ValidationError`).  `notFound` is Django `DoesNotExist`
(`NotFound`), `multipleObjectsReturned` the `.get()` ambiguity error. -/
inductive Err where
  | validationError
  | notFound
  | multipleObjectsReturned
  deriving DecidableEq, Repr

namespace User

/-- Modelled from the spec: the `verifyEmail()` entry point.  The precondition
check — fetching the pending EMAIL_VERIFICATION code via the Verification Code
Issuer's `get`, which "fails with `NotFound` if none pending" (spec §4.3) —
lives in the userauth/views layer, outside this file; only on success does it
run the source's `verify_mail`. -/
def verifyEmail (s : St) : Except Err St :=
  if (codesOf s .emailVerification).isEmpty then
    .error .notFound
  else
    .ok (verify_mail s)

/-- The single-account state produced by `UserManager._create_user(email, …)`
for this account: the normalized e-mail in both slots, password set, the row
saved, then `_send_welcome_mail` = `_unverify_mail` (one fresh
EMAIL_VERIFICATION code, `mail_verified=False`) plus the welcome e-mail. -/
def initSt (email : EmailStr) (password : Option String)
    (display_name : Option String) (groups : List Nat) : St :=
  let e := normalize_email email
  let u : UserRecord := new_user_record e (set_password password) display_name
  let s : St :=
    { mem := u, row := u, codes := [], nextCode := 0
      memberships := [], groups := groups, outbox := [] }
  let s := unverify_mail s
  { s with outbox := s.outbox ++ ["mailverification"] }

/-- Account states reachable from account creation through the model's
state-transition operations. -/
inductive Reachable : St → Prop where
  | init (email : EmailStr) (password : Option String)
      (display_name : Option String) (groups : List Nat) :
      Reachable (initSt email password display_name groups)
  | verify {s} : Reachable s → Reachable (verify_mail s)
  | unverify {s} : Reachable s → Reachable (unverify_mail s)
  | updateEmail {s} (e : Option EmailStr) : Reachable s → Reachable (update_email s e)
  | restoreEmail {s} : Reachable s → Reachable (restore_email s)
  | updateLanguage {s} (l : String) : Reachable s → Reachable (update_language s l)
  | sendMailVerification {s} : Reachable s → Reachable (send_mail_verification_code s)
  | sendAccountDeletion {s} : Reachable s →
      Reachable (send_account_deletion_verification_code s)
  | resetPassword {s} : Reachable s → Reachable (reset_password s)
  | changePassword {s} (p : String) : Reachable s → Reachable (change_password s p)
  | delete {s} (now : Nat) : Reachable s → Reachable (delete_ s now)

/-- Spec §3 invariant: a pending EMAIL_VERIFICATION code exists iff
`mail_verified` is false (on the committed row). -/
def Inv (s : St) : Prop :=
  (∃ c ∈ s.codes, c.purpose = CodePurpose.emailVerification) ↔ s.row.mail_verified = false

instance (s : St) : Decidable (Inv s) := by
  unfold Inv
  infer_instance

end User

namespace UserManager

/-- Manager-level state: all user rows (by id), all verification-code rows
(user id paired with the code), fresh-id counters and the e-mail outbox. -/
structure MSt where
  users : List (Nat × UserRecord)
  codes : List (Nat × VCode)
  nextUser : Nat
  nextCode : Nat
  outbox : List String
  deriving DecidableEq, Repr

/-- `UserManager._validate_email`: `ValueError` when `None`, otherwise Django's
`normalize_email`. -/
def validate_email (email : Option EmailStr) : Except Err EmailStr :=
  match email with
  | none => .error .validationError
  | some e => .ok (normalize_email e)

/-- `UserManager._create_user` / `create_user` (`@transaction.atomic`):
validate and normalize the e-mail, store it in both the canonical and the
pending slot, set the password, save the new row, then `_send_welcome_mail`
(= `_unverify_mail`: delete this user's EMAIL_VERIFICATION codes, create a
fresh one, `mail_verified=False`, save; plus the verification e-mail).
Returns the new account's id alongside the updated state. -/
def create_user (db : MSt) (email : Option EmailStr) (password : Option String)
    (display_name : Option String) : Except Err (MSt × Nat) :=
  match validate_email email with
  | .error e => .error e
  | .ok e =>
    let uid := db.nextUser
    let u : UserRecord := new_user_record e (set_password password) display_name
    let codes := db.codes.filter
      (fun c => ¬ (c.1 = uid ∧ c.2.purpose = CodePurpose.emailVerification))
    let codes := codes ++ [(uid, ⟨CodePurpose.emailVerification, db.nextCode⟩)]
    .ok ({ users := db.users ++ [(uid, u)]
           codes := codes
           nextUser := db.nextUser + 1
           nextCode := db.nextCode + 1
           outbox := db.outbox ++ ["mailverification"] }, uid)

/-- `UserManager.get_by_natural_key`: `self.get(email__iexact=email)` — the
unique case-insensitive match, `DoesNotExist` when there is none,
`MultipleObjectsReturned` when it is ambiguous. -/
def get_by_natural_key (db : MSt) (email : EmailStr) : Except Err (Nat × UserRecord) :=
  match db.users.filter (fun p => iexactOpt p.2.email email) with
  | [] => .error .notFound
  | [p] => .ok p
  | _ => .error .multipleObjectsReturned

end UserManager

/-! ### Generic list and string lemmas -/

theorem lowerCode_upperCode (n : Nat) : lowerCode (upperCode n) = lowerCode n := by
  unfold lowerCode upperCode
  split_ifs <;> omega

theorem lowerCode_lowerCode (n : Nat) : lowerCode (lowerCode n) = lowerCode n := by
  unfold lowerCode
  split_ifs <;> omega

theorem lowerStr_upperStr (s : EmailStr) : lowerStr (upperStr s) = lowerStr s := by
  unfold lowerStr upperStr
  rw [List.map_map]
  exact List.map_congr_left (fun n _ => lowerCode_upperCode n)

theorem lowerStr_lowerStr (s : EmailStr) : lowerStr (lowerStr s) = lowerStr s := by
  unfold lowerStr
  rw [List.map_map]
  exact List.map_congr_left (fun n _ => lowerCode_lowerCode n)

theorem splitLastAt_eq : ∀ {s a b : EmailStr}, splitLastAt s = some (a, b) → s = a ++ 64 :: b := by
  intro s
  induction s with
  | nil => intro a b h; simp [splitLastAt] at h
  | cons c rest ih =>
    intro a b h
    unfold splitLastAt at h
    cases hr : splitLastAt rest with
    | some p =>
      rw [hr] at h
      cases h
      simpa using congrArg (c :: ·) (ih hr)
    | none =>
      rw [hr] at h
      by_cases hc : c = 64
      · simp [hc] at h
        obtain ⟨ha, hb⟩ := h
        simp [hc, ← ha, ← hb]
      · simp [hc] at h

/-- Case-insensitively, Django's normalization is the identity on e-mails
without surrounding whitespace. -/
theorem lowerStr_normalize_email {E : EmailStr} (hE : pstrip E = E) :
    lowerStr (normalize_email E) = lowerStr E := by
  unfold normalize_email
  rw [hE]
  cases h : splitLastAt E with
  | none => rfl
  | some p =>
    obtain ⟨a, b⟩ := p
    have hsplit : E = a ++ 64 :: b := splitLastAt_eq h
    simp only [hsplit, lowerStr, List.map_append, List.map_cons]
    have : (lowerStr b).map lowerCode = b.map lowerCode := lowerStr_lowerStr b
    simp only [lowerStr] at this
    rw [this]

theorem iexact_upperStr (a b : EmailStr) : iexact a (upperStr b) = iexact a b := by
  unfold iexact
  rw [lowerStr_upperStr]

theorem iexactOpt_upperStr (a : Option EmailStr) (b : EmailStr) :
    iexactOpt a (upperStr b) = iexactOpt a b := by
  cases a with
  | none => rfl
  | some a' => simp [iexactOpt, iexact_upperStr]

/-! ### Verification-code bookkeeping lemmas -/

namespace User

theorem codesOf_deleteCodes_self (s : St) (p : CodePurpose) :
    codesOf (deleteCodes s p) p = [] := by
  simp only [codesOf, deleteCodes, List.filter_filter]
  rw [List.filter_eq_nil_iff]
  intro c hc
  simp

theorem codesOf_eq_nil_of_forall_ne
    {l : List VCode} {p : CodePurpose} (h : ∀ c ∈ l, c.purpose ≠ p) :
    l.filter (fun c => c.purpose = p) = [] := by
  rw [List.filter_eq_nil_iff]
  intro c hc
  simpa using h c hc

theorem exists_purpose_filter_ne {l : List VCode} {p q : CodePurpose} (hqp : q ≠ p) :
    (∃ c ∈ l.filter (fun c => c.purpose ≠ p), c.purpose = q) ↔ ∃ c ∈ l, c.purpose = q := by
  constructor
  · rintro ⟨c, hc, hq⟩
    exact ⟨c, (List.mem_filter.mp hc).1, hq⟩
  · rintro ⟨c, hc, hq⟩
    refine ⟨c, List.mem_filter.mpr ⟨hc, ?_⟩, hq⟩
    simp [hq, hqp]

end User

/-! ### Concrete states used as inputs for counterexamples and witnesses -/

namespace User

/-- A mail-verified staff account with a description, a photo with two
renditions, and membership in two groups. -/
def uA : UserRecord :=
  { email := some (strCodes "a@x.com")
    is_active := true
    is_staff := true
    is_superuser := false
    display_name := some "Ann"
    description := "hello"
    language := "en"
    mail_verified := true
    unverified_email := some (strCodes "a@x.com")
    password := Password.usable "pw"
    photo := { original := some "p.jpg", variants := ["s.jpg", "m.jpg"] }
    deleted := false
    deleted_at := none }

def sA : St :=
  { mem := uA, row := uA, codes := [], nextCode := 3
    memberships := [1, 2], groups := [1, 2], outbox := [] }

/-- The state right after account creation for `a@x.com`. -/
def s0 : St := initSt (strCodes "a@x.com") (some "pw") none [1, 2]

end User

/-! ### Claim theorems -/

open User UserManager

/-- Claim C1: `delete()` removes all group memberships, clears description,
makes the password unusable, clears both the canonical `email` and the pending
`unverified_email`, clears the active/staff/verified flags, deletes the photo
and its variants, and stamps `deleted`/`deleted_at`.  Evaluating `delete_` on a
concrete account shows every documented scrub EXCEPT the canonical e-mail: the
source line `self.mail = None` assigns a nonexistent attribute (the field is
`email`), so the canonical e-mail keeps its value. -/
theorem C1_delete_scrubs_all_but_canonical_email :
    (delete_ sA 7).row.email = some (strCodes "a@x.com")
    ∧ (delete_ sA 7).memberships = []
    ∧ (delete_ sA 7).row.description = ""
    ∧ (delete_ sA 7).row.password = Password.unusable
    ∧ (delete_ sA 7).row.unverified_email = none
    ∧ (delete_ sA 7).row.is_active = false
    ∧ (delete_ sA 7).row.is_staff = false
    ∧ (delete_ sA 7).row.mail_verified = false
    ∧ (delete_ sA 7).row.photo = { original := none, variants := [] }
    ∧ (delete_ sA 7).row.deleted = true
    ∧ (delete_ sA 7).row.deleted_at = some 7 := by
  decide

/-- Claim C4: `createUser` fails with the taxonomy's ValidationError when the
e-mail argument is absent (`None`) — the `ValueError` raised by
`_validate_email`, which the spec's error taxonomy names `ValidationError`. -/
theorem C4_create_user_absent_email_fails :
    ∀ (db : MSt) (pw dn : Option String),
      create_user db none pw dn = Except.error Err.validationError :=
  fun _ _ _ => rfl

/-- Claim C5 counterexample: a second `delete_` at a later clock time CHANGES
`deleted_at` — the source re-assigns `self.deleted_at = timezone.now()`
unconditionally, so `deleted_at` is not "set exactly once". -/
theorem C5_counterexample_second_delete_restamps :
    (delete_ (delete_ sA 1) 2).row.deleted_at ≠ (delete_ sA 1).row.deleted_at := by
  decide

/-- Claim C5 amended: on a second `delete_`, `deleted` stays true, but
`deleted_at` is overwritten with the current time of the second call; it equals
the time of the most recent deletion, so it is unchanged only when the clock
has not advanced. -/
theorem C5_second_delete_keeps_deleted_restamps_time :
    ∀ (s : St) (t₁ t₂ : Nat),
      (delete_ (delete_ s t₁) t₂).row.deleted = true
      ∧ (delete_ s t₁).row.deleted = true
      ∧ (delete_ s t₁).row.deleted_at = some t₁
      ∧ (delete_ (delete_ s t₁) t₂).row.deleted_at = some t₂ :=
  fun _ _ _ => ⟨rfl, rfl, rfl, rfl⟩

/-- Claim C7 counterexample: `update_language` does NOT commit the language as
a row mutation — the source has no `self.save()`, so the committed row keeps
the old language while only the in-memory instance changes. -/
theorem C7_counterexample_language_not_committed :
    (update_language sA "de").row.language ≠ "de"
    ∧ (update_language sA "de").mem.language = "de" := by
  constructor
  · decide
  · rfl

/-- Claim C7 amended: `update_language` sets the in-memory language tag and
changes nothing else — no other instance field, no committed row data, no
verification codes, memberships, groups or outgoing mail — but the row
mutation itself is never committed by this operation. -/
theorem C7_update_language_in_memory_frame :
    ∀ (s : St) (l : String),
      (update_language s l).mem = { s.mem with language := l }
      ∧ (update_language s l).row = s.row
      ∧ (update_language s l).codes = s.codes
      ∧ (update_language s l).nextCode = s.nextCode
      ∧ (update_language s l).memberships = s.memberships
      ∧ (update_language s l).groups = s.groups
      ∧ (update_language s l).outbox = s.outbox :=
  fun _ _ => ⟨rfl, rfl, rfl, rfl, rfl, rfl, rfl⟩

/-- Claim C8: `update_email(new)` immediately followed by `restore_email()`
leaves the canonical e-mail unchanged (in memory and on the committed row),
sets `mail_verified = true`, and leaves zero pending EMAIL_VERIFICATION
codes. -/
theorem C8_update_then_restore_email :
    ∀ (s : St) (e : Option EmailStr),
      (restore_email (update_email s e)).mem.email = s.mem.email
      ∧ (restore_email (update_email s e)).row.email = s.mem.email
      ∧ (restore_email (update_email s e)).mem.mail_verified = true
      ∧ (restore_email (update_email s e)).row.mail_verified = true
      ∧ (restore_email (update_email s e)).mem.unverified_email = s.mem.email
      ∧ codesOf (restore_email (update_email s e)) .emailVerification = [] := by
  intro s e
  refine ⟨rfl, rfl, rfl, rfl, rfl, ?_⟩
  exact codesOf_deleteCodes_self (update_email s e) .emailVerification

/-! ### Invariant-preservation lemmas (spec §3: pending EMAIL_VERIFICATION
code exists iff `mail_verified` is false) -/

namespace User

theorem no_purpose_in_filter_ne (l : List VCode) (p : CodePurpose) :
    ¬ ∃ c ∈ l.filter (fun c => c.purpose ≠ p), c.purpose = p := by
  rintro ⟨c, hc, he⟩
  have h2 := (List.mem_filter.mp hc).2
  rw [he] at h2
  simp at h2

theorem codesOf_delete_create (s : St) (p : CodePurpose) :
    codesOf (createCode (deleteCodes s p) p) p = [⟨p, s.nextCode⟩] := by
  unfold codesOf createCode
  rw [List.filter_append]
  have h1 : codesOf (deleteCodes s p) p = [] := codesOf_deleteCodes_self s p
  unfold codesOf at h1
  rw [h1]
  simp [deleteCodes]

theorem inv_verify_mail (s : St) : Inv (verify_mail s) := by
  unfold Inv verify_mail deleteCodes save
  constructor
  · intro hex
    exact absurd hex (no_purpose_in_filter_ne s.codes .emailVerification)
  · intro hf
    simp at hf

theorem inv_unverify_mail (s : St) : Inv (unverify_mail s) := by
  unfold Inv unverify_mail deleteCodes createCode save
  constructor
  · intro _; rfl
  · intro _
    exact ⟨⟨.emailVerification, s.nextCode⟩,
      List.mem_append_right _ (List.mem_singleton.mpr rfl), rfl⟩

theorem inv_update_email (s : St) (e : Option EmailStr) : Inv (update_email s e) :=
  inv_unverify_mail _

theorem inv_restore_email (s : St) : Inv (restore_email s) := by
  unfold Inv restore_email deleteCodes save
  constructor
  · intro hex
    exact absurd hex (no_purpose_in_filter_ne s.codes .emailVerification)
  · intro hf
    simp at hf

theorem inv_send_mail_verification_code (s : St) : Inv (send_mail_verification_code s) := by
  unfold Inv send_mail_verification_code
  exact inv_unverify_mail s

theorem inv_send_account_deletion (s : St) (h : Inv s) :
    Inv (send_account_deletion_verification_code s) := by
  unfold Inv send_account_deletion_verification_code deleteCodes createCode
  refine Iff.trans ?_ h
  constructor
  · rintro ⟨c, hc, he⟩
    rcases List.mem_append.mp hc with hl | hr
    · exact ⟨c, (List.mem_filter.mp hl).1, he⟩
    · rw [List.mem_singleton.mp hr] at he
      simp at he
  · rintro ⟨c, hc, he⟩
    refine ⟨c, List.mem_append_left _ (List.mem_filter.mpr ⟨hc, ?_⟩), he⟩
    rw [he]
    decide

theorem inv_reset_password (s : St) (h : Inv s) : Inv (reset_password s) := by
  unfold Inv reset_password deleteCodes createCode
  refine Iff.trans ?_ h
  constructor
  · rintro ⟨c, hc, he⟩
    rcases List.mem_append.mp hc with hl | hr
    · exact ⟨c, (List.mem_filter.mp hl).1, he⟩
    · rw [List.mem_singleton.mp hr] at he
      simp at he
  · rintro ⟨c, hc, he⟩
    refine ⟨c, List.mem_append_left _ (List.mem_filter.mpr ⟨hc, ?_⟩), he⟩
    rw [he]
    decide

theorem inv_change_password (s : St) (p : String) (h : Inv s)
    (heq : s.mem.mail_verified = s.row.mail_verified) : Inv (change_password s p) := by
  unfold Inv change_password deleteCodes save
  rw [heq]
  refine Iff.trans ?_ h
  constructor
  · rintro ⟨c, hc, he⟩
    exact ⟨c, (List.mem_filter.mp hc).1, he⟩
  · rintro ⟨c, hc, he⟩
    refine ⟨c, List.mem_filter.mpr ⟨hc, ?_⟩, he⟩
    rw [he]
    decide

theorem inv_delete_of_unverified (s : St) (t : Nat) (h : Inv s)
    (hm : s.row.mail_verified = false) : Inv (delete_ s t) := by
  unfold Inv delete_ delete_photo save
  exact ⟨fun _ => rfl, fun _ => h.mpr hm⟩

/-- Repeated invocation of `reset_password`. -/
def resetN : Nat → St → St
  | 0, s => s
  | n + 1, s => resetN n (reset_password s)

theorem resetN_single_code : ∀ (n : Nat), 1 ≤ n → ∀ s : St,
    (codesOf (resetN n s) .passwordReset).length = 1 := by
  intro n
  induction n with
  | zero => intro h; omega
  | succ m ih =>
    intro _ s
    cases m with
    | zero =>
      have h1 : codesOf (reset_password s) .passwordReset = [⟨.passwordReset, s.nextCode⟩] :=
        codesOf_delete_create s .passwordReset
      show (codesOf (reset_password s) .passwordReset).length = 1
      rw [h1]
      rfl
    | succ k =>
      exact ih (Nat.succ_le_succ (Nat.zero_le k)) (reset_password s)

end User

/-- Claim C2: `verifyEmail()` requires a pending EMAIL_VERIFICATION code (the
code lookup outside this model fails with NotFound otherwise); on success it
deletes that code, promotes `unverified_email` to the canonical e-mail, sets
`mail_verified = true`, and a second call without a new pending code fails
with NotFound. -/
theorem C2_verify_email_once (s : St) (h : codesOf s .emailVerification ≠ []) :
    verifyEmail s = Except.ok (verify_mail s)
    ∧ codesOf (verify_mail s) .emailVerification = []
    ∧ (verify_mail s).row.email = s.mem.unverified_email
    ∧ (verify_mail s).row.mail_verified = true
    ∧ verifyEmail (verify_mail s) = Except.error Err.notFound := by
  have hne : (codesOf s .emailVerification).isEmpty = false := by
    cases hc : codesOf s .emailVerification with
    | nil => exact absurd hc h
    | cons a t => rfl
  have hempty : codesOf (verify_mail s) .emailVerification = [] :=
    codesOf_deleteCodes_self s .emailVerification
  refine ⟨?_, hempty, rfl, rfl, ?_⟩
  · unfold verifyEmail
    rw [hne]
    rfl
  · unfold verifyEmail
    rw [hempty]
    rfl

/-- Witness for C2 at the freshly created account `s0`, which holds exactly
one pending EMAIL_VERIFICATION code. -/
theorem C2_witness :
    verifyEmail s0 = Except.ok (verify_mail s0)
    ∧ codesOf (verify_mail s0) .emailVerification = []
    ∧ (verify_mail s0).row.email = s0.mem.unverified_email
    ∧ (verify_mail s0).row.mail_verified = true
    ∧ verifyEmail (verify_mail s0) = Except.error Err.notFound :=
  C2_verify_email_once s0 (by decide)

/-- Claim C3 counterexample: the state reached by creating an account,
verifying its e-mail, and then deleting it is reachable but violates the
invariant "a pending EMAIL_VERIFICATION code exists iff `mail_verified` is
false": `delete_` sets `mail_verified = false` without touching verification
codes, so the deleted previously-verified account has no pending code. -/
theorem C3_counterexample_delete_breaks_invariant :
    Reachable (delete_ (verify_mail s0) 5) ∧ ¬ Inv (delete_ (verify_mail s0) 5) := by
  constructor
  · exact Reachable.delete 5 (Reachable.verify (Reachable.init _ _ _ _))
  · decide

/-- Claim C3 amended: the invariant "a pending EMAIL_VERIFICATION code exists
iff `mail_verified` is false" is preserved by every operation EXCEPT
`delete_`: `delete_` preserves it only when `mail_verified` was already false
(it clears the flag but leaves the codes untouched), and `change_password`
preserves it whenever the instance agrees with its committed row on
`mail_verified` (true of every state the operations produce, since all of
them except `update_language` save, and `update_language` only touches the
language field). -/
theorem C3_invariant_preservation (s : St) (h : Inv s) :
    Inv (verify_mail s)
    ∧ Inv (unverify_mail s)
    ∧ (∀ e, Inv (update_email s e))
    ∧ Inv (restore_email s)
    ∧ (∀ l, Inv (update_language s l))
    ∧ Inv (send_mail_verification_code s)
    ∧ Inv (send_account_deletion_verification_code s)
    ∧ Inv (reset_password s)
    ∧ (∀ p, s.mem.mail_verified = s.row.mail_verified → Inv (change_password s p))
    ∧ (∀ t, s.row.mail_verified = false → Inv (delete_ s t)) :=
  ⟨inv_verify_mail s, inv_unverify_mail s, inv_update_email s, inv_restore_email s,
   fun _ => h, inv_send_mail_verification_code s, inv_send_account_deletion s h,
   inv_reset_password s h, fun p heq => inv_change_password s p h heq,
   fun t hm => inv_delete_of_unverified s t h hm⟩

/-- Witness for C3 at the freshly created account `s0`, which satisfies the
invariant. -/
theorem C3_witness : Inv (verify_mail s0) :=
  (C3_invariant_preservation s0 (by decide)).1

/-- Claim C9: after any positive number of `reset_password` calls exactly one
pending PASSWORD_RESET code exists — each call first deletes the existing
codes of that purpose and then issues one fresh code (replacement, not
duplication). -/
theorem C9_reset_password_replaces (s : St) (n : Nat) (h : 1 ≤ n) :
    (codesOf (resetN n s) .passwordReset).length = 1
    ∧ codesOf (reset_password s) .passwordReset = [⟨.passwordReset, s.nextCode⟩] :=
  ⟨resetN_single_code n h s, codesOf_delete_create s .passwordReset⟩

/-- Witness for C9: two consecutive `reset_password` calls on the freshly
created account leave exactly one PASSWORD_RESET code. -/
theorem C9_witness :
    (codesOf (resetN 2 s0) .passwordReset).length = 1
    ∧ codesOf (reset_password s0) .passwordReset = [⟨.passwordReset, s0.nextCode⟩] :=
  C9_reset_password_replaces s0 2 (by decide)

/-- Claim C10 (implicit): `update_email` un-verifies the account as a side
effect — it leaves `mail_verified = false` on the committed row and exactly
one pending EMAIL_VERIFICATION code, freshly issued (not any code that
existed before the call), besides setting `unverified_email`. -/
theorem C10_update_email_unverifies (s : St) (e : Option EmailStr)
    (hfresh : ∀ c ∈ s.codes, c.code < s.nextCode) :
    (update_email s e).row.mail_verified = false
    ∧ (update_email s e).mem.unverified_email = e
    ∧ (update_email s e).row.unverified_email = e
    ∧ codesOf (update_email s e) .emailVerification = [⟨.emailVerification, s.nextCode⟩]
    ∧ (⟨CodePurpose.emailVerification, s.nextCode⟩ : VCode) ∉ s.codes := by
  refine ⟨rfl, rfl, rfl, ?_, ?_⟩
  · exact codesOf_delete_create
      { s with mem := { s.mem with unverified_email := e },
               outbox := s.outbox ++ ["changemail_notice"] }
      .emailVerification
  · intro hmem
    have := hfresh _ hmem
    simp at this

/-- Witness for C10 on the freshly created account (whose only code has value
0, below the counter 1), updating to `b@y.org`. -/
theorem C10_witness :
    (update_email s0 (some (strCodes "b@y.org"))).row.mail_verified = false
    ∧ (update_email s0 (some (strCodes "b@y.org"))).mem.unverified_email
        = some (strCodes "b@y.org")
    ∧ (update_email s0 (some (strCodes "b@y.org"))).row.unverified_email
        = some (strCodes "b@y.org")
    ∧ codesOf (update_email s0 (some (strCodes "b@y.org"))) .emailVerification
        = [⟨.emailVerification, s0.nextCode⟩]
    ∧ (⟨CodePurpose.emailVerification, s0.nextCode⟩ : VCode) ∉ s0.codes :=
  C10_update_email_unverifies s0 (some (strCodes "b@y.org")) (by decide)

/-! ### Claim C6: account creation and case-insensitive lookup -/

/-- The empty manager-level database. -/
def db0 : MSt := { users := [], codes := [], nextUser := 0, nextCode := 0, outbox := [] }

theorem get_by_natural_key_of_filter_singleton (db : MSt) (key : EmailStr)
    (uid : Nat) (u : UserRecord)
    (h : db.users.filter (fun p => iexactOpt p.2.email key) = [(uid, u)]) :
    get_by_natural_key db key = Except.ok (uid, u) := by
  unfold get_by_natural_key
  rw [h]

/-- Claim C6 counterexample: for `E = " a@x.com"` (leading whitespace),
`create_user` succeeds — `normalize_email` strips the whitespace before
storing — but the case-insensitive lookup of `E.upper()` afterwards fails with
NotFound instead of returning the created account, because the lookup key
keeps the whitespace the stored value lost.  So the claim's universal lookup
property does not hold for every e-mail `E`. -/
theorem C6_counterexample_whitespace_email :
    (create_user db0 (some (strCodes " a@x.com")) (some "pw") none).map
      (fun p => get_by_natural_key p.1 (upperStr (strCodes " a@x.com")))
    = Except.ok (Except.error Err.notFound) := rfl

/-- Claim C6 amended: for every e-mail `E` without leading or trailing
whitespace (`pstrip E = E`) and every database in which no existing account's
e-mail case-insensitively matches `E`, after `create_user(E, …)` succeeds the
normalized `E` is stored in both the canonical `email` and the
`unverified_email` slot, `mail_verified` is false, exactly one pending
EMAIL_VERIFICATION code exists for the new account, and the case-insensitive
canonical-key lookup of `E.upper()` returns the created account.  (For
whitespace-padded `E` everything but the lookup still holds; only the lookup
clause requires `pstrip E = E`.) -/
theorem C6_create_then_upper_lookup (db : MSt) (E : EmailStr) (pw dn : Option String)
    (hE : pstrip E = E)
    (hmatch : ∀ p ∈ db.users, iexactOpt p.2.email E = false) :
    ∃ db' : MSt,
      create_user db (some E) pw dn = Except.ok (db', db.nextUser)
      ∧ db'.users = db.users
          ++ [(db.nextUser, new_user_record (normalize_email E) (set_password pw) dn)]
      ∧ (new_user_record (normalize_email E) (set_password pw) dn).email
          = some (normalize_email E)
      ∧ (new_user_record (normalize_email E) (set_password pw) dn).unverified_email
          = some (normalize_email E)
      ∧ (new_user_record (normalize_email E) (set_password pw) dn).mail_verified = false
      ∧ (db'.codes.filter (fun c => c.1 = db.nextUser
          ∧ c.2.purpose = CodePurpose.emailVerification)).length = 1
      ∧ get_by_natural_key db' (upperStr E)
          = Except.ok (db.nextUser, new_user_record (normalize_email E) (set_password pw) dn) := by
  have hnew : iexactOpt (some (normalize_email E)) (upperStr E) = true := by
    show iexact (normalize_email E) (upperStr E) = true
    rw [iexact_upperStr]
    unfold iexact
    rw [lowerStr_normalize_email hE]
    exact beq_self_eq_true _
  have hold : db.users.filter (fun p => iexactOpt p.2.email (upperStr E)) = [] := by
    rw [List.filter_eq_nil_iff]
    intro p hp
    rw [iexactOpt_upperStr]
    simp [hmatch p hp]
  refine ⟨_, rfl, rfl, rfl, rfl, rfl, ?_, ?_⟩
  · show ((db.codes.filter _ ++ _).filter _).length = 1
    rw [List.filter_append]
    have h1 : (db.codes.filter
        (fun c => ¬ (c.1 = db.nextUser ∧ c.2.purpose = CodePurpose.emailVerification))).filter
        (fun c => c.1 = db.nextUser ∧ c.2.purpose = CodePurpose.emailVerification) = [] := by
      rw [List.filter_filter, List.filter_eq_nil_iff]
      intro c hc
      simp only [Bool.and_eq_true, decide_eq_true_eq]
      tauto
    rw [h1]
    simp
  · refine get_by_natural_key_of_filter_singleton _ _ _ _ ?_
    show (db.users ++ _).filter _ = _
    rw [List.filter_append, hold]
    have h2 : iexactOpt (new_user_record (normalize_email E) (set_password pw) dn).email
        (upperStr E) = true := hnew
    simp [h2]

/-- Witness for C6 on the empty database with the mixed-case e-mail
`A@x.com`. -/
theorem C6_witness :
    ∃ db' : MSt,
      create_user db0 (some (strCodes "A@x.com")) (some "pw") none
        = Except.ok (db', db0.nextUser)
      ∧ db'.users = db0.users
          ++ [(db0.nextUser, new_user_record (normalize_email (strCodes "A@x.com"))
                (set_password (some "pw")) none)]
      ∧ (new_user_record (normalize_email (strCodes "A@x.com"))
          (set_password (some "pw")) none).email
          = some (normalize_email (strCodes "A@x.com"))
      ∧ (new_user_record (normalize_email (strCodes "A@x.com"))
          (set_password (some "pw")) none).unverified_email
          = some (normalize_email (strCodes "A@x.com"))
      ∧ (new_user_record (normalize_email (strCodes "A@x.com"))
          (set_password (some "pw")) none).mail_verified = false
      ∧ (db'.codes.filter (fun c => c.1 = db0.nextUser
          ∧ c.2.purpose = CodePurpose.emailVerification)).length = 1
      ∧ get_by_natural_key db' (upperStr (strCodes "A@x.com"))
          = Except.ok (db0.nextUser, new_user_record (normalize_email (strCodes "A@x.com"))
              (set_password (some "pw")) none) :=
  C6_create_then_upper_lookup db0 (strCodes "A@x.com") (some "pw") none
    (by decide) (by decide)
